import Mathlib

/-!
Verification of the drone-defence control stack.

Shallow embedding of the core components, translated from the Python source:
* `sources/engine_utils.py` — frame-coordinate to angle conversion;
* `sources/carriage.py` — `CarriageController` limit checks and moves;
* `sources/uartapi.py` — the `Uart.__sender` transaction loop;
* `camera_control/core.py` — `AICore.get_biggest_info` and the `standby`
  state of the acquisition state machine;
* `camera_control/sources/tracked_obj.py` — the `TrackObject` record.

Python floats are modelled as rationals (`ℚ`); Python exceptions that the
source does not catch are modelled with `Except Unit`.
-/

namespace DroneDefence

/-! ## engine_utils.py -/

/-- `coord_to_angle(coord, dim, angle)` from `sources/engine_utils.py`:
`angle * (0.5 - coord / dim)`. -/
def coord_to_angle (coord dim angle : ℚ) : ℚ :=
  angle * (0.5 - coord / dim)

/-- `ncoord_to_angle` is imported by `camera_control/core.py` but its body is
not in the sources. Modelled from the spec: "convert the object's normalized
center to horizontal/vertical angles using
`angle = view_angle × (0.5 − normalized_coord)`". -/
def ncoord_to_angle (ncoord angle : ℚ) : ℚ :=
  angle * (0.5 - ncoord)

/-! ## carriage.py : limits and moves

An axis limit attribute of `CarriageController` is either a number or the
sentinel that the code's `!= "None"` test recognizes (the string `"None"`).
Comparing a number against the sentinel with `<` / `>` is a Python
`TypeError`; that uncaught exception is modelled as `Except.error ()`. -/

inductive Lim where
  | num (q : ℚ)
  | sent
  deriving DecidableEq, Repr

/-- Python `v < l` where `l` is a limit attribute: a `TypeError` when `l`
is the sentinel string. -/
def pyLtLim (v : ℚ) (l : Lim) : Except Unit Bool :=
  match l with
  | .num m => .ok (decide (v < m))
  | .sent => .error ()

/-- Python `v > l` where `l` is a limit attribute. -/
def pyGtLim (v : ℚ) (l : Lim) : Except Unit Bool :=
  match l with
  | .num m => .ok (decide (v > m))
  | .sent => .error ()

def Lim.isSent : Lim → Bool
  | .num _ => false
  | .sent => true

/-- State of `CarriageController`: cached absolute position, the four limit
attributes, and the `command_executed` flag. -/
structure Carriage where
  x : ℚ
  y : ℚ
  minX : Lim
  maxX : Lim
  minY : Lim
  maxY : Lim
  commandExecuted : Bool
  deriving DecidableEq, Repr

/-- One axis of `CarriageController.check_limits`:
`if min != "None" or max != "None": if v < min or v > max: return False`.
Returns `ok true` when the axis blocks the move, `ok false` when it lets it
pass, `error` on the sentinel `TypeError`. The `or` in the guard means the
comparisons run unless BOTH ends are the sentinel, and Python's short-circuit
`or` evaluates `v < min` before `v > max`. -/
def axisCheck (mn mx : Lim) (v : ℚ) : Except Unit Bool :=
  if !mn.isSent || !mx.isSent then
    match pyLtLim v mn with
    | .error e => .error e
    | .ok true => .ok true
    | .ok false => pyGtLim v mx
  else
    .ok false

/-- `CarriageController.check_limits(new_x, new_y)`: X axis first, then Y;
returns `False` as soon as an axis blocks, `True` otherwise. -/
def check_limits (c : Carriage) (nx ny : ℚ) : Except Unit Bool :=
  match axisCheck c.minX c.maxX nx with
  | .error e => .error e
  | .ok true => .ok false
  | .ok false =>
    match axisCheck c.minY c.maxY ny with
    | .error e => .error e
    | .ok true => .ok false
    | .ok false => .ok true

/-- `CarriageController.move_relative(delta_x, delta_y)`. `execOk` is the
value `self.uart.exec_status()` reports after the send; the UART transaction
itself is outside this state. On a passed check the cached position becomes
the target and the call returns `True`; on a failed check nothing changes and
it returns `False`. -/
def move_relative (c : Carriage) (execOk : Bool) (dx dy : ℚ) :
    Except Unit (Carriage × Bool) :=
  let nx := c.x + dx
  let ny := c.y + dy
  match check_limits c nx ny with
  | .error e => .error e
  | .ok true => .ok ({ c with x := nx, y := ny, commandExecuted := execOk }, true)
  | .ok false => .ok (c, false)

/-- `CarriageController.move_to_absolute(x_angle, y_angle)`. -/
def move_to_absolute (c : Carriage) (execOk : Bool) (tx ty : ℚ) :
    Except Unit (Carriage × Bool) :=
  match check_limits c tx ty with
  | .error e => .error e
  | .ok true => .ok ({ c with x := tx, y := ty, commandExecuted := execOk }, true)
  | .ok false => .ok (c, false)

/-! ## uartapi.py : the `Uart.__sender` transaction loop

The environment is modelled as the sequence of events the serial port
delivers: each `readline().decode().strip()` either yields a (stripped)
line or raises.  An exhausted stream keeps yielding `""` (pyserial timeout
semantics), so the `[]` case behaves like an empty line.  A transaction's
outcome is the accumulated result list together with the `__executed` flag
that `exec_status()` reports. -/

inductive ReadEv where
  | line (s : String)
  | exc
  deriving DecidableEq, Repr

/-- Python `needle in hay` on strings: contiguous-substring containment,
i.e. the needle's characters form an infix of the hay's characters. -/
def pyIn (needle hay : String) : Bool :=
  decide (List.IsInfix needle.data hay.data)

/-- The loop's exit test `end_marker is None or end_marker in response`. -/
def termHit (em : Option String) (s : String) : Bool :=
  match em with
  | none => true
  | some m => pyIn m s

/-- The `while True` read loop of `Uart.__sender`: append each nonempty
response, stop with `__executed = True` on a terminator hit, stop with
`__executed = False` on an empty line; an exception during a read is caught
and the lines accumulated so far are returned with `__executed = False`. -/
def senderLoop (em : Option String) : List ReadEv → List String → List String × Bool
  | [], acc => (acc.reverse, false)
  | .exc :: _, acc => (acc.reverse, false)
  | .line s :: rest, acc =>
    if s = "" then (acc.reverse, false)
    else if termHit em s then ((s :: acc).reverse, true)
    else senderLoop em rest (s :: acc)

/-- `Uart.__sender(command, end_marker)`: `__executed` is cleared, the
command is written (`writeFails` models an exception in `port.write`, caught
by the same handler), then the read loop runs.  The function is total: no
exception escapes to the caller. -/
def sender (writeFails : Bool) (em : Option String) (stream : List ReadEv) :
    List String × Bool :=
  if writeFails then ([], false) else senderLoop em stream []

/-! ## tracked_obj.py : the TrackObject record -/

/-- Normalized or pixel bounding box `(x, y, w, h)`. -/
def Box4 := ℚ × ℚ × ℚ × ℚ
deriving instance DecidableEq for Box4

/-- `TrackObject` from `camera_control/sources/tracked_obj.py`.  The Python
`error` field is a pair that is `(None, None)` until a lock, so it is a pair
of optional values here.  `update(**kwargs)` assigns the passed fields and
always refreshes `time`; the call sites below are specialized to the exact
keyword sets the state machine passes. -/
structure TrackObject where
  camera : ℕ
  abs : ℚ × ℚ
  box : Box4
  id : Option ℤ
  error : Option ℚ × Option ℚ
  tracked : Bool
  time : ℚ

/-- Target creation in `AICore.overview`:
`TrackObject(camera_index, absolute, bbox, time=time.time())` — the dataclass
defaults give `id=None`, `error=(None, None)`, `tracked=False`. -/
def overviewCreate (camera : ℕ) (absPos : ℚ × ℚ) (box : Box4) (t : ℚ) :
    TrackObject :=
  ⟨camera, absPos, box, none, (none, none), false, t⟩

/-- The fallback creation in `AICore.tracking`:
`TrackObject(0, (0, 119), (0, 0, 20, 20), time=time.time())`. -/
def trackingDefaultCreate (t : ℚ) : TrackObject :=
  ⟨0, (0, 119), (0, 0, 20, 20), none, (none, none), false, t⟩

/-- `self.target.update(abs=absolute, box=bbox, tracked=False, error=(None, None))`
in the re-scan branch of `AICore.standby`; `update` refreshes `time`. -/
def standby_scan_update (o : TrackObject) (absPos : ℚ × ℚ) (box : Box4) (t : ℚ) :
    TrackObject :=
  { o with abs := absPos, box := box, tracked := false, error := (none, none),
           time := t }

/-- `self.target.update(error=(float(err_x), float(err_y)), tracked=True, box=bbox)`
in the lock branch of `AICore.standby`. -/
def standby_lock_update (o : TrackObject) (err : ℚ × ℚ) (box : Box4) (t : ℚ) :
    TrackObject :=
  { o with error := (some err.1, some err.2), tracked := true, box := box,
           time := t }

/-- `self.target.update(error=(float(err_x), float(err_y)), box=bbox, tracked=True)`
in `AICore.tracking`. -/
def tracking_update (o : TrackObject) (err : ℚ × ℚ) (box : Box4) (t : ℚ) :
    TrackObject :=
  { o with error := (some err.1, some err.2), box := box, tracked := true,
           time := t }

/-- The §3 invariant on a target record: the angular error is `(None, None)`
whenever the tracking flag is false. -/
def errOK (o : TrackObject) : Prop := o.tracked = false → o.error = (none, none)

/-! ## core.py : AICore.get_biggest_info

A detection result row carries the class id, the pixel box `xywh[0]` and the
normalized box `xywhn[0]`.  A camera's entry in `detection_results` is `none`
when `camera_results is None`. -/

structure Det where
  cls : ℤ
  px : ℚ
  py : ℚ
  w : ℚ
  h : ℚ
  nbox : Box4

/-- Inner loop of `get_biggest_info` over one camera's results, carrying
`max_area` and `biggest_info`. -/
def gbiInner (droneId : ℤ) (idx : ℕ) :
    List Det → ℚ → Option (ℕ × Box4) → ℚ × Option (ℕ × Box4)
  | [], m, b => (m, b)
  | d :: ds, m, b =>
    if d.cls ≠ droneId then gbiInner droneId idx ds m b
    else if d.w * d.h ≥ m then gbiInner droneId idx ds (d.w * d.h) (some (idx, d.nbox))
    else gbiInner droneId idx ds m b

/-- Outer loop over `enumerate(detection_results)`; `None` rows are skipped
but still advance the camera index. -/
def gbiOuter (droneId : ℤ) :
    List (Option (List Det)) → ℕ → ℚ → Option (ℕ × Box4) → Option (ℕ × Box4)
  | [], _, _, b => b
  | none :: rest, i, m, b => gbiOuter droneId rest (i + 1) m b
  | some ds :: rest, i, m, b =>
    let p := gbiInner droneId i ds m b
    gbiOuter droneId rest (i + 1) p.1 p.2

/-- `AICore.get_biggest_info(detection_results)` from
`camera_control/core.py`: starts with `max_area = 0` and an empty
`biggest_info`, and returns the camera index and normalized box of the
selected detection (or nothing). -/
def get_biggest_info (droneId : ℤ) (rs : List (Option (List Det))) :
    Option (ℕ × Box4) :=
  gbiOuter droneId rs 0 0 none

/-- Specification-side view: the scan order of `(camera_index, detection)`
pairs, starting the enumeration at camera index `i`. -/
def camEntries (i : ℕ) : List (Option (List Det)) → List (ℕ × Det)
  | [] => []
  | none :: rest => camEntries (i + 1) rest
  | some ds :: rest => ds.map (fun d => (i, d)) ++ camEntries (i + 1) rest

/-- Pixel area of a scanned entry. -/
def entryArea (e : ℕ × Det) : ℚ := e.2.w * e.2.h

/-- The drone-class detections in scan order. -/
def droneEntries (droneId : ℤ) (rs : List (Option (List Det))) : List (ℕ × Det) :=
  (camEntries 0 rs).filter (fun e => decide (e.2.cls = droneId))

/-- Running maximum of the areas, floored at the loop's initial
`max_area = 0`. -/
def maxAreaFrom (m : ℚ) (l : List (ℕ × Det)) : ℚ :=
  l.foldl (fun a e => max a (entryArea e)) m

/-- One update of the `(max_area, biggest_info)` pair on a drone-class
entry: replace when `obj_area >= max_area`. -/
def selStep (p : ℚ × Option (ℕ × Box4)) (e : ℕ × Det) : ℚ × Option (ℕ × Box4) :=
  if entryArea e ≥ p.1 then (entryArea e, some (e.1, e.2.nbox)) else p

/-- Specification-side selection: among the drone-class entries, the last
one whose area attains the floored running maximum, projected to
`(camera_index, normalized_box)`. -/
def winners (l : List (ℕ × Det)) : Option (ℕ × Box4) :=
  (l.filter fun e => decide (entryArea e = maxAreaFrom 0 l)).getLast?.map
    fun e => (e.1, e.2.nbox)

/-! ## core.py : the standby state

One iteration of the `while not tracked` loop of `AICore.standby`, as a
function of the pre-state and of the environment observed during that
iteration.  The wall-clock reads (`time.time()`) and the detector outputs are
environment inputs. -/

/-- Configuration slice of `AICore` used by `standby`. -/
structure SysCfg where
  standbyTimeout : ℚ
  longDuration : ℚ
  horizAngle : ℚ
  verticAngle : ℚ
  horizont : ℚ
  calibration : ℕ → ℚ

/-- `self._long_duration = 10` in `AICore.__init__`. -/
def longDurationDefault : ℚ := 10

/-- Environment of one standby iteration: the successive `time.time()`
values, frame availability, and the `get_biggest_info` outcomes. -/
structure StandbyEnv where
  tCheck : ℚ
  frames : Bool
  scanInfo : Option (ℕ × Box4)
  tScan : ℚ
  trackFrame : Bool
  trackInfo : Option (ℕ × Box4)
  tUpd : ℚ
  tFinal : ℚ

/-- `AICore.get_angles(bbox)`: angles of the box center via
`ncoord_to_angle` with the configured view angles. -/
def get_angles (cfg : SysCfg) (box : Box4) : ℚ × ℚ :=
  (ncoord_to_angle box.1 cfg.horizAngle, ncoord_to_angle box.2.1 cfg.verticAngle)

/-- Absolute aim position computed in the re-scan branch:
`abs_x = x_calib + rel_x`, `abs_y = y_calib - rel_y`. -/
def absFromScan (cfg : SysCfg) (idx : ℕ) (box : Box4) : ℚ × ℚ :=
  let rel := get_angles cfg box
  (cfg.calibration idx + rel.1, cfg.horizont - rel.2)

/-- Result of the pre-check part of a standby iteration: the state string,
the live target, the new `standby_time`, and the `tracked` flag. -/
structure StandbyBranchOut where
  state : String
  target : TrackObject
  standbyTime : ℚ
  tracked : Bool

/-- The part of a standby iteration before `send_target` and the
long-duration check.  Returns `none` when the iteration hits a `continue`
(no frames), in which case the long-duration check is not reached. -/
def standbyBranch (cfg : SysCfg) (state : String) (target : TrackObject)
    (standbyTime : ℚ) (env : StandbyEnv) : Option StandbyBranchOut :=
  if env.tCheck - standbyTime > cfg.standbyTimeout then
    if env.frames = false then none
    else
      match env.scanInfo with
      | some info =>
        let absPos := absFromScan cfg info.1 info.2
        some ⟨state, standby_scan_update target absPos info.2 env.tUpd,
              env.tScan, false⟩
      | none => some ⟨state, target, env.tScan, false⟩
  else
    if env.trackFrame = false then none
    else
      match env.trackInfo with
      | some info =>
        let err := get_angles cfg info.2
        some ⟨"tracking", standby_lock_update target err info.2 env.tUpd,
              standbyTime, true⟩
      | none => some ⟨state, target, standbyTime, false⟩

/-- Post-iteration picture: current state string, the optional live target,
`standby_time`, and whether the `while not tracked` loop is left (by `break`
or because `tracked` became true). -/
structure StandbyIterOut where
  state : String
  target : Option TrackObject
  standbyTime : ℚ
  exitLoop : Bool

/-- One full iteration of the standby loop: the branch, then (unless the
iteration was a `continue`) the check
`if time.time() - self.target.time >= self._long_duration:` which sets
`state = "overview"`, resets the target and breaks. -/
def standbyIter (cfg : SysCfg) (state : String) (target : TrackObject)
    (standbyTime : ℚ) (env : StandbyEnv) : StandbyIterOut :=
  match standbyBranch cfg state target standbyTime env with
  | none => ⟨state, some target, standbyTime, false⟩
  | some b =>
    if env.tFinal - b.target.time ≥ cfg.longDuration then
      ⟨"overview", none, b.standbyTime, true⟩
    else
      ⟨b.state, some b.target, b.standbyTime, b.tracked⟩

/-! ## Closed-loop aiming controller (PID)

Modelled from the spec: the PID controller of §4.3 is not among the source
files (only the spec describes `update`/`reset`), so it is embedded from the
spec's words: `dt = timestamp − previous_timestamp`; if `dt <= 0` return zero
output without mutating state; otherwise `error = setpoint + measured`,
`integral += error × dt`, `derivative = (error − previous_error) / dt`,
`output = kp×error + ki×integral + kd×derivative` clamped to
`[outMin, outMax]`, then store `previous_error` and `previous_timestamp`. -/

structure PID where
  kp : ℚ
  ki : ℚ
  kd : ℚ
  setpoint : ℚ
  outMin : ℚ
  outMax : ℚ
  integral : ℚ
  prevError : ℚ
  prevTime : ℚ
  deriving DecidableEq, Repr

/-- Clamp a value to `[lo, hi]`. -/
def clampTo (lo hi v : ℚ) : ℚ := max lo (min hi v)

/-- Modelled from the spec: per-axis `update(measured_error, timestamp)` of
§4.3; returns the new controller state and the output. -/
def PID.update (p : PID) (measured t : ℚ) : PID × ℚ :=
  let dt := t - p.prevTime
  if dt ≤ 0 then (p, 0)
  else
    let e := p.setpoint + measured
    let integral := p.integral + e * dt
    let derivative := (e - p.prevError) / dt
    let out := clampTo p.outMin p.outMax (p.kp * e + p.ki * integral + p.kd * derivative)
    ({ p with integral := integral, prevError := e, prevTime := t }, out)

/-! ## Theorems -/

/-- Helper: `check_limits` with four numeric limits never raises and blocks
exactly when an axis bound is violated. -/
theorem check_limits_num (c : Carriage) (nx ny a b a2 b2 : ℚ)
    (hmnx : c.minX = .num a) (hmxx : c.maxX = .num b)
    (hmny : c.minY = .num a2) (hmxy : c.maxY = .num b2) :
    check_limits c nx ny =
      .ok (decide ¬(nx < a ∨ nx > b ∨ ny < a2 ∨ ny > b2)) := by
  unfold check_limits axisCheck pyLtLim pyGtLim Lim.isSent
  rw [hmnx, hmxx, hmny, hmxy]
  by_cases h1 : nx < a <;> by_cases h2 : nx > b <;>
    by_cases h3 : ny < a2 <;> by_cases h4 : ny > b2 <;>
    simp [h1, h2, h3, h4]

/-- C7: for every frame dimension `dim ≠ 0` and view angle,
`coord_to_angle(coord, dim, angle) = angle × (0.5 − coord/dim)`; in
particular the frame center maps to angle `0`, coordinate `0` to
`angle/2`, and coordinate `dim` to `−angle/2`. -/
theorem coord_to_angle_linear (c d a : ℚ) (hd : d ≠ 0) :
    coord_to_angle c d a = a * (1/2 - c / d) ∧
    coord_to_angle (d / 2) d a = 0 ∧
    coord_to_angle 0 d a = a / 2 ∧
    coord_to_angle d d a = -(a / 2) := by
  unfold coord_to_angle
  refine ⟨by norm_num, ?_, ?_, ?_⟩ <;> field_simp <;> ring

/-- Witness for C7 at `coord = 1`, `dim = 2`, `angle = 90`. -/
theorem coord_to_angle_linear_witness :
    (2 : ℚ) ≠ 0 ∧ coord_to_angle 1 2 90 = 0 := by
  have h := (coord_to_angle_linear 1 2 90 (by norm_num)).2.1
  norm_num at h
  exact ⟨by norm_num, h⟩

/-- C9: the per-axis PID update with `dt = t − prevTime ≤ 0` returns a zero
output and leaves the whole controller state — in particular the integral
and the stored previous error — unchanged. -/
theorem pid_update_nonpositive_dt (p : PID) (m t : ℚ)
    (h : t - p.prevTime ≤ 0) :
    PID.update p m t = (p, 0) := by
  unfold PID.update
  simp [h]

/-- Witness for C9 with a duplicate timestamp (`dt = 0`). -/
theorem pid_update_nonpositive_dt_witness :
    PID.update ⟨1, 1, 1, 0, -180, 180, 5, 2, 10⟩ 3 10 =
      (⟨1, 1, 1, 0, -180, 180, 5, 2, 10⟩, 0) :=
  pid_update_nonpositive_dt _ 3 10 (by norm_num)

/-- C1: with numeric limits on both axes, a move request whose target
violates a bound returns `False` with the cached position (indeed the whole
controller state) unchanged, and a move request within the bounds returns
`True` with the cached position set exactly to the requested target. -/
theorem carriage_move_limit_semantics (c : Carriage) (e : Bool)
    (dx dy tx ty a b a2 b2 : ℚ)
    (hmnx : c.minX = .num a) (hmxx : c.maxX = .num b)
    (hmny : c.minY = .num a2) (hmxy : c.maxY = .num b2) :
    ((c.x + dx < a ∨ c.x + dx > b ∨ c.y + dy < a2 ∨ c.y + dy > b2) →
      move_relative c e dx dy = .ok (c, false)) ∧
    (¬(c.x + dx < a ∨ c.x + dx > b ∨ c.y + dy < a2 ∨ c.y + dy > b2) →
      move_relative c e dx dy =
        .ok ({ c with x := c.x + dx, y := c.y + dy, commandExecuted := e }, true)) ∧
    ((tx < a ∨ tx > b ∨ ty < a2 ∨ ty > b2) →
      move_to_absolute c e tx ty = .ok (c, false)) ∧
    (¬(tx < a ∨ tx > b ∨ ty < a2 ∨ ty > b2) →
      move_to_absolute c e tx ty =
        .ok ({ c with x := tx, y := ty, commandExecuted := e }, true)) := by
  have hr := check_limits_num c (c.x + dx) (c.y + dy) a b a2 b2 hmnx hmxx hmny hmxy
  have ha := check_limits_num c tx ty a b a2 b2 hmnx hmxx hmny hmxy
  refine ⟨fun hv => ?_, fun hv => ?_, fun hv => ?_, fun hv => ?_⟩ <;>
    simp only [move_relative, move_to_absolute] <;>
    [rw [hr]; rw [hr]; rw [ha]; rw [ha]] <;>
    simp [hv]

/-- Witness for C1: limits `[0,10] × [0,10]` from position `(5,5)`; the
relative move `(+20, 0)` is rejected in full, the absolute move `(7, 3)` is
applied exactly. -/
theorem carriage_move_limit_semantics_witness :
    move_relative ⟨5, 5, .num 0, .num 10, .num 0, .num 10, true⟩ false 20 0 =
      .ok (⟨5, 5, .num 0, .num 10, .num 0, .num 10, true⟩, false) ∧
    move_to_absolute ⟨5, 5, .num 0, .num 10, .num 0, .num 10, true⟩ false 7 3 =
      .ok (⟨7, 3, .num 0, .num 10, .num 0, .num 10, false⟩, true) := by
  have h := carriage_move_limit_semantics
    ⟨5, 5, .num 0, .num 10, .num 0, .num 10, true⟩ false 20 0 7 3 0 10 0 10
    rfl rfl rfl rfl
  refine ⟨h.1 (by norm_num), ?_⟩
  have h4 := h.2.2.2 (by norm_num)
  exact h4

/-- C10: whenever the limit check passes, both move functions cache the
requested target position and return `True` no matter what `exec_status()`
reported for the UART transaction; the unconfirmed status is only recorded
in `command_executed`, so the cached position is never rolled back. -/
theorem move_position_cache_divergence (c : Carriage) (e : Bool)
    (dx dy tx ty : ℚ)
    (h1 : check_limits c (c.x + dx) (c.y + dy) = .ok true)
    (h2 : check_limits c tx ty = .ok true) :
    move_relative c e dx dy =
      .ok ({ c with x := c.x + dx, y := c.y + dy, commandExecuted := e }, true) ∧
    move_to_absolute c e tx ty =
      .ok ({ c with x := tx, y := ty, commandExecuted := e }, true) := by
  constructor
  · simp only [move_relative]
    rw [h1]
  · simp only [move_to_absolute]
    rw [h2]

/-- Witness for C10: the UART transaction is unconfirmed (`exec_status`
false), yet the in-limit absolute move returns `True` and the cached
position becomes the target. -/
theorem move_position_cache_divergence_witness :
    move_relative ⟨5, 5, .num 0, .num 10, .num 0, .num 10, true⟩ false 1 1 =
      .ok (⟨6, 6, .num 0, .num 10, .num 0, .num 10, false⟩, true) ∧
    move_to_absolute ⟨5, 5, .num 0, .num 10, .num 0, .num 10, true⟩ false 7 3 =
      .ok (⟨7, 3, .num 0, .num 10, .num 0, .num 10, false⟩, true) := by
  have h := move_position_cache_divergence
    ⟨5, 5, .num 0, .num 10, .num 0, .num 10, true⟩ false 1 1 7 3
    (by rw [check_limits_num _ _ _ 0 10 0 10 rfl rfl rfl rfl]; norm_num)
    (by rw [check_limits_num _ _ _ 0 10 0 10 rfl rfl rfl rfl]; norm_num)
  constructor
  · have h1 := h.1
    norm_num at h1 ⊢
    exact h1
  · exact h.2

/-- C3, counterexample: with `min_x = 0`, an unbounded (sentinel) `max_x`
and a fully sentinel Y axis, the in-range request `new_x = 5` does not pass
the check — the comparison `new_x > "None"` is a `TypeError` — although the
claim says the sentinel disables checking on that side and the check should
return `True`. -/
theorem check_limits_sentinel_counterexample :
    check_limits ⟨0, 0, .num 0, .sent, .sent, .sent, false⟩ 5 0 = .error () ∧
    check_limits ⟨0, 0, .num 0, .sent, .sent, .sent, false⟩ 5 0 ≠ .ok true :=
  ⟨rfl, fun h => by rw [show check_limits ⟨0, 0, .num 0, .sent, .sent, .sent, false⟩
      5 0 = .error () from rfl] at h; exact Except.noConfusion h⟩

/-- C3, amended: limit checking on an axis is skipped only when BOTH that
axis's min and max are the sentinel; when exactly one side is the sentinel
the comparison against it raises a type error (only a value below a numeric
min is still rejected before the sentinel max is consulted).  With numeric
bounds the axis blocks exactly outside `[min, max]`; the axes are checked
independently, X first, a blocking axis makes the whole check return
`False`, and a rejected move leaves the whole state unchanged (never a
partial move). -/
theorem check_limits_amended (v a b : ℚ) (c : Carriage) (e : Bool)
    (dx dy tx ty : ℚ) :
    axisCheck .sent .sent v = .ok false ∧
    axisCheck (.num a) .sent v = (if v < a then .ok true else .error ()) ∧
    axisCheck .sent (.num b) v = .error () ∧
    axisCheck (.num a) (.num b) v = .ok (decide (v < a) || decide (v > b)) ∧
    (axisCheck c.minX c.maxX tx = .ok true → check_limits c tx ty = .ok false) ∧
    (axisCheck c.minX c.maxX tx = .ok false →
      axisCheck c.minY c.maxY ty = .ok true → check_limits c tx ty = .ok false) ∧
    (check_limits c tx ty = .ok false → move_to_absolute c e tx ty = .ok (c, false)) ∧
    (check_limits c (c.x + dx) (c.y + dy) = .ok false →
      move_relative c e dx dy = .ok (c, false)) := by
  refine ⟨rfl, ?_, rfl, ?_, fun hx => ?_, fun hx hy => ?_, fun hc => ?_, fun hc => ?_⟩
  · unfold axisCheck pyLtLim pyGtLim Lim.isSent
    by_cases h : v < a <;> simp [h]
  · unfold axisCheck pyLtLim pyGtLim Lim.isSent
    by_cases h : v < a <;> by_cases h2 : v > b <;> simp [h, h2]
  · unfold check_limits
    rw [hx]
  · unfold check_limits
    rw [hx, hy]
  · simp only [move_to_absolute]
    rw [hc]
  · simp only [move_relative]
    rw [hc]

/-- Witness for C3's amended statement: a fully sentinel axis passes, and a
move blocked by the numeric X bound is rejected with the state unchanged. -/
theorem check_limits_amended_witness :
    axisCheck .sent .sent (5 : ℚ) = .ok false ∧
    move_to_absolute ⟨5, 5, .num 0, .num 10, .num 0, .num 10, true⟩ true 20 5 =
      .ok (⟨5, 5, .num 0, .num 10, .num 0, .num 10, true⟩, false) := by
  have h := check_limits_amended 5 0 10
    ⟨5, 5, .num 0, .num 10, .num 0, .num 10, true⟩ true 0 0 20 5
  refine ⟨h.1, h.2.2.2.2.2.2.1 ?_⟩
  rw [check_limits_num _ _ _ 0 10 0 10 rfl rfl rfl rfl]
  norm_num

/-- Helper: the sender read loop walks over a run of nonempty,
non-terminator lines, accumulating them. -/
theorem senderLoop_run (em : Option String) (rest : List ReadEv) :
    ∀ (pre : List String) (acc : List String),
      (∀ s ∈ pre, s ≠ "" ∧ termHit em s = false) →
      senderLoop em (pre.map .line ++ rest) acc =
        senderLoop em rest (pre.reverse ++ acc) := by
  intro pre
  induction pre with
  | nil => intro acc _; simp
  | cons s pre' ih =>
    intro acc h
    have hs := h s (List.mem_cons_self s pre')
    simp only [List.map_cons, List.cons_append, senderLoop, hs.1, hs.2,
      Bool.false_eq_true, if_false, List.append_eq]
    rw [ih (s :: acc) (fun x hx => h x (List.mem_cons_of_mem s hx))]
    simp

/-- C2: for a transaction with terminator `em`, after any run of nonempty
non-terminator lines, a line containing the terminator ends the transaction
with `executed = true` and the whole accumulated list (terminator line
included), while an empty line ends it with `executed = false` and only the
lines accumulated so far; in particular an immediate empty line gives
`(_, false)` with an empty list, and `["ACK", "TIME 12"]` with terminator
`"TIME"` gives both lines with `executed = true`. -/
theorem sender_terminator_semantics (em : Option String) (pre : List String)
    (t : String) (rest : List ReadEv)
    (hpre : ∀ s ∈ pre, s ≠ "" ∧ termHit em s = false) :
    (t ≠ "" → termHit em t = true →
      sender false em (pre.map .line ++ .line t :: rest) = (pre ++ [t], true)) ∧
    sender false em (pre.map .line ++ .line "" :: rest) = (pre, false) ∧
    sender false (some "TIME") [.line ""] = ([], false) ∧
    sender false (some "TIME") [.line "ACK", .line "TIME 12"] =
      (["ACK", "TIME 12"], true) := by
  refine ⟨fun ht htt => ?_, ?_, by decide, by decide⟩
  · unfold sender
    rw [senderLoop_run em (.line t :: rest) pre [] hpre]
    simp [senderLoop, ht, htt]
  · unfold sender
    rw [senderLoop_run em (.line "" :: rest) pre [] hpre]
    simp [senderLoop]

/-- Witness for C2: one nonempty non-terminator line `"ACK"`, then the
terminator line `"TIME 12"`, then junk that is never read. -/
theorem sender_terminator_semantics_witness :
    sender false (some "TIME") [.line "ACK", .line "TIME 12", .exc] =
      (["ACK", "TIME 12"], true) := by
  have h := sender_terminator_semantics (some "TIME") ["ACK"] "TIME 12" [.exc]
    (by intro s hs; simp at hs; subst hs; exact ⟨by decide, by decide⟩)
  have h1 := h.1 (by decide) (by decide)
  simpa using h1

/-- C6: a transport fault is contained in the driver: an exception raised
during the write yields `([], false)`, and an exception during a later read
yield the lines received before the fault with `executed = false`; the
model function is total, so no exception reaches the caller, and the second
component is exactly what `exec_status()` then reports. -/
theorem sender_fault_containment (em : Option String) (pre : List String)
    (rest : List ReadEv)
    (hpre : ∀ s ∈ pre, s ≠ "" ∧ termHit em s = false) :
    sender false em (pre.map .line ++ .exc :: rest) = (pre, false) ∧
    (∀ stream : List ReadEv, sender true em stream = ([], false)) := by
  refine ⟨?_, fun stream => rfl⟩
  unfold sender
  rw [senderLoop_run em (.exc :: rest) pre [] hpre]
  simp [senderLoop]

/-- Witness for C6: a read fault after `"ACK"` in a `"TIME"`-terminated
transaction returns the partial list with `executed = false`. -/
theorem sender_fault_containment_witness :
    sender false (some "TIME") [.line "ACK", .exc, .line "TIME 9"] =
      (["ACK"], false) ∧
    sender true (some "TIME") [.line "TIME 9"] = ([], false) := by
  have h := sender_fault_containment (some "TIME") ["ACK"] [.line "TIME 9"]
    (by intro s hs; simp at hs; subst hs; exact ⟨by decide, by decide⟩)
  exact ⟨by simpa using h.1, h.2 [.line "TIME 9"]⟩

/-- C5: in any standby iteration that reaches the bottom check (no
`continue`) without gaining a tracking lock, if the live target's age at
the check (`time.time() - self.target.time`) has reached the long-duration
timeout of 10 seconds, the machine sets `state = "overview"`, resets the
target to `None`, and breaks out of the standby loop. -/
theorem standby_long_timeout_reverts (cfg : SysCfg) (st : String)
    (tgt : TrackObject) (sbt : ℚ) (env : StandbyEnv) (b : StandbyBranchOut)
    (hcfg : cfg.longDuration = 10)
    (hb : standbyBranch cfg st tgt sbt env = some b)
    (_hnolock : b.tracked = false)
    (hage : env.tFinal - b.target.time ≥ 10) :
    standbyIter cfg st tgt sbt env = ⟨"overview", none, b.standbyTime, true⟩ := by
  unfold standbyIter
  rw [hb, hcfg]
  simp [hage]

/-- Witness for C5: a tracking-cadence iteration with a frame but no
detection, on a target created 20 seconds before the check. -/
theorem standby_long_timeout_reverts_witness :
    standbyIter ⟨3, 10, 90, 60, 119, fun _ => 0⟩ "standby"
        (overviewCreate 0 (0, 0) (0, 0, 0, 0) 0) 0
        ⟨1, false, none, 0, true, none, 0, 20⟩ =
      ⟨"overview", none, 0, true⟩ := by
  have h := standby_long_timeout_reverts ⟨3, 10, 90, 60, 119, fun _ => 0⟩
    "standby" (overviewCreate 0 (0, 0) (0, 0, 0, 0) 0) 0
    ⟨1, false, none, 0, true, none, 0, 20⟩
    ⟨"standby", overviewCreate 0 (0, 0) (0, 0, 0, 0) 0, 0, false⟩
    rfl
    (by unfold standbyBranch; norm_num)
    rfl
    (by unfold overviewCreate; norm_num)
  exact h

/-- C8: every `TrackObject` the state machine creates or mutates satisfies
the invariant "error is `(None, None)` whenever `tracked` is false":
creation uses the untracked defaults, the untracked standby re-scan update
passes `error=(None, None)` with `tracked=False`, and the lock/tracking
updates set numeric errors only together with `tracked=True`; hence the
standby step preserves the invariant. -/
theorem target_error_invariant :
    (∀ cam absPos box t, errOK (overviewCreate cam absPos box t)) ∧
    (∀ t, errOK (trackingDefaultCreate t)) ∧
    (∀ o absPos box t, errOK (standby_scan_update o absPos box t)) ∧
    (∀ o err box t, errOK (standby_lock_update o err box t)) ∧
    (∀ o err box t, errOK (tracking_update o err box t)) ∧
    (∀ cfg st o sbt env b, standbyBranch cfg st o sbt env = some b →
      errOK o → errOK b.target) ∧
    (∀ cfg st o sbt env o2, (standbyIter cfg st o sbt env).target = some o2 →
      errOK o → errOK o2) := by
  have hbranch : ∀ cfg st o sbt env b, standbyBranch cfg st o sbt env = some b →
      errOK o → errOK b.target := by
    intro cfg st o sbt env b hb ho
    unfold standbyBranch at hb
    split at hb
    · split at hb
      · exact Option.noConfusion hb
      · cases hinfo : env.scanInfo with
        | some info =>
          rw [hinfo] at hb
          cases hb
          intro _
          rfl
        | none =>
          rw [hinfo] at hb
          cases hb
          exact ho
    · split at hb
      · exact Option.noConfusion hb
      · cases hinfo : env.trackInfo with
        | some info =>
          rw [hinfo] at hb
          cases hb
          intro h
          exact absurd h (by simp [standby_lock_update])
        | none =>
          rw [hinfo] at hb
          cases hb
          exact ho
  refine ⟨fun _ _ _ _ _ => rfl, fun _ _ => rfl, fun _ _ _ _ _ => rfl,
    fun o err box t h => absurd h (by simp [standby_lock_update]),
    fun o err box t h => absurd h (by simp [tracking_update]),
    hbranch, ?_⟩
  intro cfg st o sbt env o2 hiter ho
  unfold standbyIter at hiter
  cases hb : standbyBranch cfg st o sbt env with
  | none =>
    rw [hb] at hiter
    cases hiter
    exact ho
  | some b =>
    rw [hb] at hiter
    by_cases hf : env.tFinal - b.target.time ≥ cfg.longDuration
    · simp only [hf, if_true] at hiter
      exact Option.noConfusion hiter
    · simp only [hf, if_false] at hiter
      cases hiter
      exact hbranch cfg st o sbt env b hb ho

/-- Witness for C8: a freshly created target and a standby branch that
passes one through both satisfy the invariant concretely. -/
theorem target_error_invariant_witness :
    (overviewCreate 2 (1, 2) (0, 0, 3, 3) 7).error = (none, none) ∧
    (trackingDefaultCreate 0).error = (none, none) := by
  refine ⟨target_error_invariant.1 2 (1, 2) (0, 0, 3, 3) 7 rfl, ?_⟩
  exact target_error_invariant.2.1 0 rfl

/-- Helper: the inner detection loop is a fold of `selStep` over that
camera's drone-class entries. -/
theorem gbiInner_foldl (droneId : ℤ) (i : ℕ) :
    ∀ (ds : List Det) (m : ℚ) (b : Option (ℕ × Box4)),
      gbiInner droneId i ds m b =
        List.foldl selStep (m, b)
          ((ds.map fun d => (i, d)).filter fun e => decide (e.2.cls = droneId)) := by
  intro ds
  induction ds with
  | nil => intro m b; rfl
  | cons d ds ih =>
    intro m b
    by_cases hc : d.cls = droneId
    · have hne : ¬d.cls ≠ droneId := fun h => h hc
      have hfc : ((d :: ds).map fun d => (i, d)).filter
            (fun e => decide (e.2.cls = droneId)) =
          (i, d) :: ((ds.map fun d => (i, d)).filter
            fun e => decide (e.2.cls = droneId)) := by
        simp [hc]
      rw [hfc, List.foldl_cons]
      by_cases ha : d.w * d.h ≥ m
      · simp only [gbiInner, if_neg hne, if_pos ha]
        rw [ih]
        congr 1
        unfold selStep entryArea
        simp [ha]
      · simp only [gbiInner, if_neg hne, if_neg ha]
        rw [ih]
        congr 1
        unfold selStep entryArea
        simp [ha]
    · have hfc : ((d :: ds).map fun d => (i, d)).filter
            (fun e => decide (e.2.cls = droneId)) =
          (ds.map fun d => (i, d)).filter fun e => decide (e.2.cls = droneId) := by
        simp [hc]
      rw [hfc]
      simp only [gbiInner, if_pos hc]
      exact ih m b

/-- Helper: the whole nested scan is a fold of `selStep` over the
drone-class entries in scan order. -/
theorem gbiOuter_foldl (droneId : ℤ) :
    ∀ (rs : List (Option (List Det))) (i : ℕ) (m : ℚ) (b : Option (ℕ × Box4)),
      gbiOuter droneId rs i m b =
        (List.foldl selStep (m, b)
          ((camEntries i rs).filter fun e => decide (e.2.cls = droneId))).2 := by
  intro rs
  induction rs with
  | nil => intro i m b; rfl
  | cons o rest ih =>
    intro i m b
    cases o with
    | none => simpa [gbiOuter, camEntries] using ih (i + 1) m b
    | some ds =>
      simp only [gbiOuter, camEntries, List.filter_append, List.foldl_append]
      rw [ih, gbiInner_foldl]

/-- Helper: folding `selStep` from the loop's initial `(0, none)` yields the
floored maximum area together with the last entry attaining it. -/
theorem foldl_selStep_char (l : List (ℕ × Det)) :
    List.foldl selStep (0, none) l = (maxAreaFrom 0 l, winners l) := by
  induction l using List.reverseRecOn with
  | nil => rfl
  | append_singleton l e ih =>
    have hmax : maxAreaFrom 0 (l ++ [e]) = max (maxAreaFrom 0 l) (entryArea e) := by
      unfold maxAreaFrom
      rw [List.foldl_append]
      rfl
    rw [List.foldl_append, ih, List.foldl_cons, List.foldl_nil]
    by_cases h : entryArea e ≥ maxAreaFrom 0 l
    · have hstep : selStep (maxAreaFrom 0 l, winners l) e =
          (entryArea e, some (e.1, e.2.nbox)) := by
        unfold selStep
        rw [if_pos h]
      have hm : maxAreaFrom 0 (l ++ [e]) = entryArea e := by
        rw [hmax, max_eq_right h]
      have hw : winners (l ++ [e]) = some (e.1, e.2.nbox) := by
        unfold winners
        rw [hm, List.filter_append]
        have hkeep : List.filter (fun e' => decide (entryArea e' = entryArea e)) [e] = [e] := by
          simp
        rw [hkeep, List.getLast?_concat]
        rfl
      rw [hstep, hm, hw]
    · have hlt : entryArea e < maxAreaFrom 0 l := lt_of_not_ge h
      have hstep : selStep (maxAreaFrom 0 l, winners l) e =
          (maxAreaFrom 0 l, winners l) := by
        unfold selStep
        rw [if_neg h]
      have hm : maxAreaFrom 0 (l ++ [e]) = maxAreaFrom 0 l := by
        rw [hmax, max_eq_left (le_of_lt hlt)]
      have hw : winners (l ++ [e]) = winners l := by
        unfold winners
        rw [hm, List.filter_append]
        have hdrop : List.filter (fun e' => decide (entryArea e' = maxAreaFrom 0 l)) [e] = [] := by
          simp [ne_of_lt hlt]
        rw [hdrop, List.append_nil]
      rw [hstep, hm, hw]

/-- Helper: the floored running maximum never goes below its seed. -/
theorem maxAreaFrom_init_le : ∀ (l : List (ℕ × Det)) (m : ℚ), m ≤ maxAreaFrom m l := by
  intro l
  induction l with
  | nil => intro m; exact le_refl m
  | cons d l ih =>
    intro m
    exact le_trans (le_max_left m (entryArea d)) (ih (max m (entryArea d)))

/-- Helper: every entry's area is bounded by the running maximum. -/
theorem entryArea_le_maxAreaFrom :
    ∀ (l : List (ℕ × Det)) (m : ℚ) (e : ℕ × Det), e ∈ l →
      entryArea e ≤ maxAreaFrom m l := by
  intro l
  induction l with
  | nil => intro m e he; exact absurd he (List.not_mem_nil e)
  | cons d l ih =>
    intro m e he
    rcases List.mem_cons.mp he with h | h
    · subst h
      exact le_trans (le_max_right m (entryArea e))
        (maxAreaFrom_init_le l (max m (entryArea e)))
    · exact ih (max m (entryArea d)) e h

/-- Helper: over nonnegative areas, a nonempty entry list attains the
floored maximum. -/
theorem maxAreaFrom_attained (l : List (ℕ × Det))
    (hnn : ∀ e ∈ l, 0 ≤ entryArea e) (hne : l ≠ []) :
    ∃ e ∈ l, entryArea e = maxAreaFrom 0 l := by
  induction l using List.reverseRecOn with
  | nil => exact absurd rfl hne
  | append_singleton l e ih =>
    have hmax : maxAreaFrom 0 (l ++ [e]) = max (maxAreaFrom 0 l) (entryArea e) := by
      unfold maxAreaFrom
      rw [List.foldl_append]
      rfl
    by_cases h : maxAreaFrom 0 l ≤ entryArea e
    · refine ⟨e, List.mem_append_right l (List.mem_singleton.mpr rfl), ?_⟩
      rw [hmax, max_eq_right h]
    · have hlt : entryArea e < maxAreaFrom 0 l := lt_of_not_ge h
      have hlne : l ≠ [] := by
        intro hl
        subst hl
        have : maxAreaFrom 0 ([] : List (ℕ × Det)) = 0 := rfl
        rw [this] at hlt
        exact absurd (hnn e (List.mem_singleton.mpr rfl)) (not_le.mpr hlt)
      obtain ⟨e', he', hval⟩ := ih (fun x hx => hnn x (List.mem_append_left [e] hx)) hlne
      refine ⟨e', List.mem_append_left [e] he', ?_⟩
      rw [hmax, max_eq_left (le_of_lt hlt), hval]

/-- C4: `get_biggest_info` returns exactly the last drone-class detection
(in camera-then-detection scan order) whose pixel area `w × h` attains the
running maximum floored at the initial `max_area = 0`; detections of other
classes are never selected (they are filtered out of `droneEntries`).  With
nonnegative pixel areas this means: the result is empty iff no drone-class
detection exists, and the selected area is greatest among all drone-class
detections, equal areas being resolved in favor of the last seen. -/
theorem get_biggest_info_spec (droneId : ℤ) (rs : List (Option (List Det))) :
    get_biggest_info droneId rs = winners (droneEntries droneId rs) ∧
    ((∀ e ∈ droneEntries droneId rs, 0 ≤ entryArea e) →
      ((get_biggest_info droneId rs = none ↔ droneEntries droneId rs = []) ∧
        ∀ e ∈ droneEntries droneId rs,
          entryArea e ≤ maxAreaFrom 0 (droneEntries droneId rs))) := by
  have hmain : get_biggest_info droneId rs = winners (droneEntries droneId rs) := by
    unfold get_biggest_info droneEntries
    rw [gbiOuter_foldl, foldl_selStep_char]
  refine ⟨hmain, fun hnn => ⟨⟨fun hnone => ?_, fun hnil => ?_⟩,
    fun e he => entryArea_le_maxAreaFrom _ 0 e he⟩⟩
  · by_contra hne
    obtain ⟨e, he, hval⟩ := maxAreaFrom_attained _ hnn hne
    rw [hmain] at hnone
    unfold winners at hnone
    rw [Option.map_eq_none'] at hnone
    rw [List.getLast?_eq_none_iff] at hnone
    have hmem : e ∈ (droneEntries droneId rs).filter
        (fun e' => decide (entryArea e' = maxAreaFrom 0 (droneEntries droneId rs))) := by
      rw [List.mem_filter]
      exact ⟨he, by rw [hval]; simp⟩
    rw [hnone] at hmem
    exact absurd hmem (List.not_mem_nil e)
  · rw [hmain]
    unfold winners
    rw [hnil]
    rfl

/-- Witness for C4: drone class `0`; camera 0 sees a drone of area 100 and
a non-drone object of larger area, camera 1 has no results, camera 2 sees a
drone of equal area 100 — the tie goes to the last-seen detection, and the
non-drone class is never selected. -/
theorem get_biggest_info_spec_witness :
    get_biggest_info 0
        [some [⟨0, 5, 5, 10, 10, (1, 1, 1, 1)⟩, ⟨7, 5, 5, 99, 99, (9, 9, 9, 9)⟩],
         none,
         some [⟨0, 5, 5, 10, 10, (2, 2, 2, 2)⟩]] =
      some (2, (2, 2, 2, 2)) ∧
    (get_biggest_info 0
        [some [⟨0, 5, 5, 10, 10, (1, 1, 1, 1)⟩, ⟨7, 5, 5, 99, 99, (9, 9, 9, 9)⟩],
         none,
         some [⟨0, 5, 5, 10, 10, (2, 2, 2, 2)⟩]] = none ↔
      droneEntries 0
        [some [⟨0, 5, 5, 10, 10, (1, 1, 1, 1)⟩, ⟨7, 5, 5, 99, 99, (9, 9, 9, 9)⟩],
         none,
         some [⟨0, 5, 5, 10, 10, (2, 2, 2, 2)⟩]] = []) := by
  have h := get_biggest_info_spec 0
    [some [⟨0, 5, 5, 10, 10, (1, 1, 1, 1)⟩, ⟨7, 5, 5, 99, 99, (9, 9, 9, 9)⟩],
     none,
     some [⟨0, 5, 5, 10, 10, (2, 2, 2, 2)⟩]]
  refine ⟨?_, (h.2 (by norm_num [droneEntries, camEntries, entryArea])).1⟩
  rw [h.1]
  norm_num [winners, droneEntries, camEntries, entryArea, maxAreaFrom,
    List.filter, List.foldl, List.getLast?]

end DroneDefence
